import Mathlib

/-!
# qq-bot-api: the types of `types.go`, their display helpers and wire form

A shallow embedding of `types.go`.  Go strings are rendered as Lean strings,
the Go integer types `int64` and `int` as `Int` (the range predicate
`isInt64` states the machine bound where it matters), and a Go pointer
`*T` as `Option T`.  The functions of the Go standard library that the file
relies on (`strconv.FormatInt`, `strconv.ParseInt`, `encoding/json`) are
modelled after their documented behaviour.  The update normalizer, which is
not part of `types.go`, is modelled from the specification.
-/

namespace QQBotAPI

/-! ## Machine integers and `strconv.FormatInt` -/

/-- Range of a Go `int64`. -/
def isInt64 (i : Int) : Prop := -(2 : Int) ^ 63 ≤ i ∧ i < (2 : Int) ^ 63

instance (i : Int) : Decidable (isInt64 i) := by
  unfold isInt64; exact inferInstance

/-- The Go conversion `uint64(i)` of an `int64`: the value modulo `2^64`. -/
def toUint64 (i : Int) : Nat := (i % (2 : Int) ^ 64).toNat

/-- The byte `'0' + d` written for the decimal digit `d`. -/
def digitByte (d : Nat) : Char := Char.ofNat (48 + d)

/-- The digit loop of `strconv.formatBits` for base 10: digits are written
from the least significant one, right to left, into a buffer of `cap` free
bytes (`acc` is the part of the buffer already written). -/
def formatDigits : Nat → Nat → List Char → List Char
  | 0, u, acc => digitByte (u % 10) :: acc
  | cap + 1, u, acc =>
    if 10 ≤ u then formatDigits cap (u / 10) (digitByte (u % 10) :: acc)
    else digitByte u :: acc

/-- Model of `strconv.formatBits(nil, u, 10, neg, false)`: when `neg` is set
the magnitude is `-u` in `uint64` arithmetic, the decimal digits go into the
65-byte buffer and a `'-'` is put in front. -/
def formatBits (u : Nat) (neg : Bool) : String :=
  let u := if neg then (2 ^ 64 - u) % 2 ^ 64 else u
  let ds := formatDigits 64 u []
  String.mk (if neg then '-' :: ds else ds)

/-- Model of `strconv.FormatInt(i, 10)`. -/
def FormatInt (i : Int) : String := formatBits (toUint64 i) (decide (i < 0))

/-! ## Entities -/

/-- File is a file. -/
structure File where
  ID : String
  Name : String
  Size : Int
  BusID : Int
  deriving DecidableEq, Repr, Inhabited

/-- User is a user on QQ. -/
structure User where
  ID : Int
  NickName : String
  Sex : String
  Age : Int
  Area : String
  Card : String
  CardChangeable : Bool
  Title : String
  TitleExpireTimeUnix : Int
  Level : String
  Role : String
  Unfriendly : Bool
  JoinTimeUnix : Int
  LastSentTimeUnix : Int
  AnonymousID : Int
  AnonymousName : String
  AnonymousFlag : String
  deriving DecidableEq, Repr, Inhabited

/-- Group is a group on QQ. -/
structure Group where
  ID : Int
  Name : String
  deriving DecidableEq, Repr, Inhabited

/-- Chat contains information about the place a message was sent.  The field
`Type` of the source is `Type_` here, `Type` being a keyword. -/
structure Chat where
  ID : Int
  Type_ : String
  SubType : String
  deriving DecidableEq, Repr, Inhabited

/-- Message is returned by almost every request.  The embedded
`*cqcode.Message` belongs to another package; its type is the parameter
`Content` and the embedded field is called `Embedded`. -/
structure Message (Content : Type) where
  Embedded : Option Content
  MessageID : Int
  From : Option User
  Chat : Option Chat
  Text : String
  SubType : String
  Font : Int
  deriving DecidableEq, Repr, Inhabited

/-- The zero value of `User`. -/
def zeroUser : User :=
  { ID := 0, NickName := "", Sex := "", Age := 0, Area := "", Card := "",
    CardChangeable := false, Title := "", TitleExpireTimeUnix := 0, Level := "",
    Role := "", Unfriendly := false, JoinTimeUnix := 0, LastSentTimeUnix := 0,
    AnonymousID := 0, AnonymousName := "", AnonymousFlag := "" }

/-- The zero value of `Message`. -/
def zeroMessage (Content : Type) : Message Content :=
  { Embedded := none, MessageID := 0, From := none, Chat := none, Text := "",
    SubType := "", Font := 0 }

/-- Name displays a simple text version of a user. -/
def User.Name (u : User) : String :=
  if u.AnonymousName != "" then u.AnonymousName
  else if u.Card != "" then u.Card
  else if u.NickName != "" then u.NickName
  else FormatInt u.ID

/-- String displays a simple text version of a user. -/
def User.String (u : User) : String :=
  let p := if u.Title != "" then "[" ++ u.Title ++ "]" else ""
  p ++ u.Name

/-- IsPrivate returns if the Chat is a private conversation. -/
def Chat.IsPrivate (c : Chat) : Bool := c.Type_ == "private"

/-- IsGroup returns if the Chat is a group. -/
def Chat.IsGroup (c : Chat) : Bool := c.Type_ == "group"

/-- IsDiscuss returns if the Chat is a discuss. -/
def Chat.IsDiscuss (c : Chat) : Bool := c.Type_ == "discuss"

/-- IsAnonymous returns if a message is an anonymous message. -/
def Message.IsAnonymous {Content : Type} (m : Message Content) : Bool :=
  m.SubType == "anonymous"

/-- IsNotice returns if a message is a notice. -/
def Message.IsNotice {Content : Type} (m : Message Content) : Bool :=
  m.SubType == "notice"

/-! ## The wire form: JSON trees and `encoding/json`

The struct tags of `types.go` are read by Go's `encoding/json`.  The model
works on parsed JSON trees rather than on bytes.  A number is either an
integer literal (no fraction, no exponent), which is what every numeric field
of these types produces, or a literal with a fraction or an exponent; of the
latter the model keeps the float64 that `strconv.ParseFloat` reads from it.
A `float64` that holds an integer is represented by that integer, any other
finite `float64` by the odd numerator and the power of two of its value. -/

/-- A JSON value.  `number n` is the integer literal of `n`; `fraction m k` is
a number literal with a fraction or an exponent whose float64 value is
`m / 2^k` (a literal beyond the float64 range is not represented). -/
inductive JSON where
  | null
  | bool (b : Bool)
  | number (n : Int)
  | string (s : String)
  | array (items : List JSON)
  | object (members : List (String × JSON))
  | fraction (m : Int) (k : Nat)
  deriving Repr, Inhabited

/-- The dynamic value held by a Go `interface{}`: `nil`, a `bool`, an `int`,
a `float64` (holding an integer), a `string` of valid UTF-8 (given by its
text), a non-nil `[]interface{}` or a non-nil `map[string]interface{}` (kept
as a list of entries in key order); further `float64frac m k`, the float64
`m / 2^k` that is not an integer (`m` odd, `1 ≤ k`), and `rawString`, a Go
string given by its bytes, for the strings that are not valid UTF-8.  (NaN,
the infinities and the sign of a zero are not represented.) -/
inductive GoValue where
  | nil
  | bool (b : Bool)
  | int (i : Int)
  | float64 (x : Int)
  | string (s : String)
  | slice (items : List GoValue)
  | map (entries : List (String × GoValue))
  | float64frac (m : Int) (k : Nat)
  | rawString (bytes : List Nat)
  deriving Repr, Inhabited

/-- Model of `utf8.DecodeRune`: the rune at the head of a byte sequence and
the number of bytes it takes; an invalid or truncated encoding gives
`RuneError` (U+FFFD) with size 1. -/
def decodeRune (p : List Nat) : Nat × Nat :=
  match p with
  | [] => (65533, 0)
  | p0 :: rest =>
    if p0 < 128 then (p0, 1)
    else if p0 < 194 ∨ 244 < p0 then (65533, 1)
    else
      let lo := if p0 = 224 then 160 else if p0 = 240 then 144 else 128
      let hi := if p0 = 237 then 159 else if p0 = 244 then 143 else 191
      match rest with
      | [] => (65533, 1)
      | b1 :: rest1 =>
        if b1 < lo ∨ hi < b1 then (65533, 1)
        else if p0 < 224 then (p0 % 32 * 64 + b1 % 64, 2)
        else
          match rest1 with
          | [] => (65533, 1)
          | b2 :: rest2 =>
            if b2 < 128 ∨ 191 < b2 then (65533, 1)
            else if p0 < 240 then (p0 % 16 * 4096 + b1 % 64 * 64 + b2 % 64, 3)
            else
              match rest2 with
              | [] => (65533, 1)
              | b3 :: _ =>
                if b3 < 128 ∨ 191 < b3 then (65533, 1)
                else (p0 % 8 * 262144 + b1 % 64 * 4096 + b2 % 64 * 64 + b3 % 64, 4)

/-- The string loop of the encoder (`appendString`): the bytes are read rune
by rune and every byte that starts no valid encoding is replaced by U+FFFD.
`steps` bounds the number of runes by the number of bytes. -/
def coerceUTF8 : Nat → List Nat → List Char
  | 0, _ => []
  | _ + 1, [] => []
  | steps + 1, b :: rest =>
    let r := decodeRune (b :: rest)
    Char.ofNat r.1 :: coerceUTF8 steps ((b :: rest).drop r.2)

/-- The text that `json.Marshal` writes for a Go string given by its bytes. -/
def toValidUTF8 (bytes : List Nat) : String := String.mk (coerceUTF8 bytes.length bytes)

/-- The float64 value `m / 2^k` in lowest terms: factors of two are cancelled
while the numerator is even. -/
def reduceDyadic : Int → Nat → Int × Nat
  | m, 0 => (m, 0)
  | m, k + 1 => if m % 2 = 0 then reduceDyadic (m / 2) k else (m, k + 1)

/-- Byte-wise order of two strings (the order in which `encoding/json` emits
map keys). -/
def lessChars : List Char → List Char → Bool
  | _, [] => false
  | [], _ :: _ => true
  | a :: as, b :: bs =>
    if a.toNat < b.toNat then true
    else if b.toNat < a.toNat then false
    else lessChars as bs

/-- The map assignment `m[k] = v` on a map kept in key order. -/
def mapAssign {α : Type} (k : String) (v : α) : List (String × α) → List (String × α)
  | [] => [(k, v)]
  | (k2, v2) :: rest =>
    if k = k2 then (k, v) :: rest
    else if lessChars k.data k2.data then (k, v) :: (k2, v2) :: rest
    else (k2, v2) :: mapAssign k v rest

/-- The float64 nearest to a natural number (IEEE 754 round to nearest, ties
to even, 53-bit significand); the result is again given as a natural number. -/
def roundFloat64 (n : Nat) : Nat :=
  if n < 2 ^ 53 then n
  else
    let e := Nat.log 2 n - 52
    let q := n / 2 ^ e
    let r := n % 2 ^ e
    let q2 := if 2 ^ (e - 1) < r ∨ (r = 2 ^ (e - 1) ∧ q % 2 = 1) then q + 1 else q
    q2 * 2 ^ e

/-- Model of `decodeState.convertNumber` (without `UseNumber`): the literal is
parsed by `strconv.ParseFloat(s, 64)`; a literal that rounds beyond the
largest finite float64 is an error. -/
def convertNumber (n : Int) : Option Int :=
  let m := roundFloat64 n.natAbs
  if m < 2 ^ 256 * 2 ^ 256 * 2 ^ 256 * 2 ^ 256 then
    some (if n < 0 then -(m : Int) else (m : Int))
  else none

mutual
/-- Model of `decodeState.valueInterface`: the value stored when JSON is
decoded into an `interface{}`, and whether no error was recorded.  A number
always becomes a `float64`: for an integer literal the float64 nearest to it,
for a literal with a fraction or an exponent the float64 it denotes. -/
def valueInterface : JSON → GoValue × Bool
  | .null => (.nil, true)
  | .bool b => (.bool b, true)
  | .number n =>
    match convertNumber n with
    | some x => (.float64 x, true)
    | none => (.nil, false)
  | .string s => (.string s, true)
  | .array items => let r := arrayInterface items; (.slice r.1, r.2)
  | .object members => let r := objectInterface members []; (.map r.1, r.2)
  | .fraction m k =>
    let r := reduceDyadic m k
    if r.2 = 0 then (.float64 r.1, true) else (.float64frac r.1 r.2, true)
termination_by structural x => x
/-- Model of `decodeState.arrayInterface`. -/
def arrayInterface : List JSON → List GoValue × Bool
  | [] => ([], true)
  | x :: xs =>
    let a := valueInterface x
    let b := arrayInterface xs
    (a.1 :: b.1, a.2 && b.2)
termination_by structural x => x
/-- Model of `decodeState.objectInterface`: the members are assigned to the
map in order, so a later duplicate key overwrites an earlier one. -/
def objectInterface :
    List (String × JSON) → List (String × GoValue) → List (String × GoValue) × Bool
  | [], m => (m, true)
  | (k, v) :: rest, m =>
    let a := valueInterface v
    let b := objectInterface rest (mapAssign k a.1 m)
    (b.1, a.2 && b.2)
termination_by structural x _ => x
end

mutual
/-- Model of `json.Marshal` on the value of an `interface{}`: an `int` and a
`float64` both become a JSON number, a map is emitted in key order.  A
float64 is written by `strconv.AppendFloat` with precision -1, the shortest
literal that `ParseFloat` reads back as the same float64: an integer below
1e21 as an integer literal, any other value with an exponent or a fraction.
A string is written as valid UTF-8: every invalid byte becomes U+FFFD. -/
def encodeAny : GoValue → JSON
  | .nil => .null
  | .bool b => .bool b
  | .int i => .number i
  | .float64 x => if x.natAbs < 10 ^ 21 then .number x else .fraction x 0
  | .string s => .string s
  | .slice items => .array (encodeItems items)
  | .map entries => .object (encodeEntries entries)
  | .float64frac m k => .fraction m k
  | .rawString bytes => .string (toValidUTF8 bytes)
termination_by structural x => x
/-- The elements of a slice, encoded in order. -/
def encodeItems : List GoValue → List JSON
  | [] => []
  | x :: xs => encodeAny x :: encodeItems xs
termination_by structural x => x
/-- The entries of a map, encoded and put in key order. -/
def encodeEntries : List (String × GoValue) → List (String × JSON)
  | [] => []
  | (k, v) :: rest => mapAssign k (encodeAny v) (encodeEntries rest)
termination_by structural x => x
end

/-- One exported struct field as `encoding/json` sees it: its Go name, the
content of its `json:"..."` tag, how its value is encoded and how a JSON value
is stored into it (given the name folding of the decoder: the new struct, and
whether no error was recorded). -/
structure Field (S : Type) where
  goName : String
  tag : String
  encode : S → JSON
  store : (String → String) → JSON → S → S × Bool

/-- Model of `parseTag`: the name is the tag up to its first comma. -/
def tagName (tag : String) : String := String.mk (tag.data.takeWhile (fun c => c != ','))

/-- The JSON key of a field, as computed by `typeFields`: a field tagged
`json:"-"` is left out of both encoding and decoding; otherwise the key is
the name in the tag, or the Go name when the tag gives none. -/
def Field.jsonName {S : Type} (f : Field S) : Option String :=
  if f.tag = "-" then none
  else if tagName f.tag = "" then some f.goName
  else some (tagName f.tag)

/-- A field of type `T`, from its getter, its setter and the codec of `T`. -/
def Field.make {S T : Type} (goName tag : String) (get : S → T) (set : S → T → S)
    (enc : T → JSON) (st : JSON → T → T × Bool) : Field S :=
  { goName := goName, tag := tag, encode := fun s => enc (get s),
    store := fun _ j s => let r := st j (get s); (set s r.1, r.2) }

/-- A field whose type is itself decoded by field lookup (a pointer to a
struct): its codec takes the name folding. -/
def Field.makeNested {S T : Type} (goName tag : String) (get : S → T) (set : S → T → S)
    (enc : T → JSON) (st : (String → String) → JSON → T → T × Bool) : Field S :=
  { goName := goName, tag := tag, encode := fun s => enc (get s),
    store := fun fold j s => let r := st fold j (get s); (set s r.1, r.2) }

/-- Encoding of a struct: one member per field that has a JSON key, in
declaration order. -/
def encodeStruct {S : Type} (fields : List (Field S)) (s : S) : JSON :=
  .object (fields.filterMap (fun f => (f.jsonName).map (fun k => (k, f.encode s))))

/-- Field lookup of `decodeState.object`: an exact match of the key, else a
match after case folding (`fold` stands for `foldName`, whose Unicode tables
are part of the Go library). -/
def findField {S : Type} (fold : String → String) (fields : List (Field S)) (key : String) :
    Option (Field S) :=
  match fields.find? (fun f => f.jsonName == some key) with
  | some f => some f
  | none => fields.find? (fun f => (f.jsonName).map fold == some (fold key))

/-- The member loop of `decodeState.object` on a struct: each member is
stored into the field its key selects, a member with an unknown key is
skipped; after a type error the loop goes on. -/
def decodeMembers {S : Type} (fold : String → String) (fields : List (Field S)) :
    List (String × JSON) → S → S × Bool
  | [], s => (s, true)
  | (k, v) :: rest, s =>
    match findField fold fields k with
    | none => decodeMembers fold fields rest s
    | some f =>
      let r := f.store fold v s
      let r2 := decodeMembers fold fields rest r.1
      (r2.1, r.2 && r2.2)

/-- Decoding of a JSON value into a struct: an object fills the fields,
`null` is a no-op, anything else is a type error that leaves the struct as it
was. -/
def decodeStruct {S : Type} (fold : String → String) (fields : List (Field S)) :
    JSON → S → S × Bool
  | .object members, s => decodeMembers fold fields members s
  | .null, s => (s, true)
  | _, s => (s, false)

/-- Encoding of an integer field. -/
def encodeInt (i : Int) : JSON := .number i

/-- Encoding of a string field. -/
def encodeString (s : String) : JSON := .string s

/-- Encoding of a bool field. -/
def encodeBool (b : Bool) : JSON := .bool b

/-- Encoding of a pointer to a struct: `null` for a nil pointer. -/
def encodePtr {T : Type} (fields : List (Field T)) : Option T → JSON
  | none => .null
  | some x => encodeStruct fields x

/-- Storing into an `int64` field (or an `int` field, 64 bits wide): a number
in range is stored, a `null` is a no-op, anything else is a type error. -/
def storeInt (j : JSON) (old : Int) : Int × Bool :=
  match j with
  | .null => (old, true)
  | .number n => if isInt64 n then (n, true) else (old, false)
  | _ => (old, false)

/-- Storing into a `string` field. -/
def storeString (j : JSON) (old : String) : String × Bool :=
  match j with
  | .null => (old, true)
  | .string s => (s, true)
  | _ => (old, false)

/-- Storing into a `bool` field. -/
def storeBool (j : JSON) (old : Bool) : Bool × Bool :=
  match j with
  | .null => (old, true)
  | .bool b => (b, true)
  | _ => (old, false)

/-- Storing into an `interface{}` field: `null` stores nil, a number its
`float64` (the field is left alone when the number is out of range), any other
value what `valueInterface` makes of it. -/
def storeInterface (j : JSON) (old : GoValue) : GoValue × Bool :=
  match j with
  | .null => (.nil, true)
  | .number n =>
    match convertNumber n with
    | some x => (.float64 x, true)
    | none => (old, false)
  | other => valueInterface other

/-- Storing into a pointer to a struct: `null` stores nil; an object is
decoded into the struct pointed to, a fresh zero struct when the pointer was
nil; for any other value the pointer is allocated all the same and a type
error is recorded. -/
def storePtr {T : Type} (fold : String → String) (fields : List (Field T)) (zero : T)
    (j : JSON) (old : Option T) : Option T × Bool :=
  match j with
  | .null => (none, true)
  | .object members =>
    let r := decodeMembers fold fields members (old.getD zero)
    (some r.1, r.2)
  | _ => (some (old.getD zero), false)

/-! ## The envelope types and `Update` -/

/-- APIResponse is a response from the Coolq HTTP API with the result stored
raw.  `Data` (a `json.RawMessage`) is the JSON of the member as received, and
`none` while it is nil. -/
structure APIResponse where
  Status : String
  Data : Option JSON
  RetCode : Int
  Echo : GoValue

/-- The request sent over the web socket.  `Params` is `none` for a nil map. -/
structure WebSocketRequest where
  Action : String
  Params : Option (List (String × GoValue))
  Echo : GoValue

/-- Update is an update response, from GetUpdates. -/
structure Update (Content : Type) where
  Time : Int
  PostType : String
  MessageType : String
  SubType : String
  MessageID : Int
  GroupID : Int
  DiscussID : Int
  UserID : Int
  Font : Int
  RawMessage : GoValue
  Anonymous : GoValue
  AnonymousFlag : String
  Event : String
  NoticeType : String
  OperatorID : Int
  File : Option File
  RequestType : String
  Flag : String
  Text : String
  Message : Option (Message Content)
  Sender : Option User

/-- The zero value of `File`. -/
def zeroFile : File := { ID := "", Name := "", Size := 0, BusID := 0 }

/-- The zero value of `APIResponse`. -/
def zeroAPIResponse : APIResponse := { Status := "", Data := none, RetCode := 0, Echo := .nil }

/-- The zero value of `Update`. -/
def zeroUpdate (Content : Type) : Update Content :=
  { Time := 0, PostType := "", MessageType := "", SubType := "", MessageID := 0,
    GroupID := 0, DiscussID := 0, UserID := 0, Font := 0, RawMessage := .nil,
    Anonymous := .nil, AnonymousFlag := "", Event := "", NoticeType := "",
    OperatorID := 0, File := none, RequestType := "", Flag := "", Text := "",
    Message := none, Sender := none }

/-- Encoding of a `json.RawMessage`: the raw JSON itself, `null` when nil. -/
def encodeRaw : Option JSON → JSON
  | none => .null
  | some j => j

/-- Storing into a `json.RawMessage`: its `UnmarshalJSON` keeps the JSON of
the member as it is, a `null` included. -/
def storeRaw (j : JSON) (_old : Option JSON) : Option JSON × Bool := (some j, true)

/-- Encoding of a `map[string]interface{}`: `null` for a nil map. -/
def encodeMap : Option (List (String × GoValue)) → JSON
  | none => .null
  | some m => .object (encodeEntries m)

/-- Storing into a `map[string]interface{}`: `null` stores the nil map, an
object assigns its members to the map (a fresh one when the map was nil),
anything else is a type error. -/
def storeMap (j : JSON) (old : Option (List (String × GoValue))) :
    Option (List (String × GoValue)) × Bool :=
  match j with
  | .null => (none, true)
  | .object members =>
    let r := objectInterface members (old.getD [])
    (some r.1, r.2)
  | _ => (old, false)

/-- The fields of `File` with their tags. -/
def fileFields : List (Field File) :=
  [
    Field.make "ID" "id" (fun s => s.ID) (fun s v => { s with ID := v })
      encodeString storeString,
    Field.make "Name" "name" (fun s => s.Name) (fun s v => { s with Name := v })
      encodeString storeString,
    Field.make "Size" "size" (fun s => s.Size) (fun s v => { s with Size := v })
      encodeInt storeInt,
    Field.make "BusID" "busid" (fun s => s.BusID) (fun s v => { s with BusID := v })
      encodeInt storeInt ]

/-- The fields of `User` with their tags. -/
def userFields : List (Field User) :=
  [
    Field.make "ID" "user_id" (fun s => s.ID) (fun s v => { s with ID := v })
      encodeInt storeInt,
    Field.make "NickName" "nickname" (fun s => s.NickName) (fun s v => { s with NickName := v })
      encodeString storeString,
    Field.make "Sex" "sex" (fun s => s.Sex) (fun s v => { s with Sex := v })
      encodeString storeString,
    Field.make "Age" "age" (fun s => s.Age) (fun s v => { s with Age := v })
      encodeInt storeInt,
    Field.make "Area" "area" (fun s => s.Area) (fun s v => { s with Area := v })
      encodeString storeString,
    Field.make "Card" "card" (fun s => s.Card) (fun s v => { s with Card := v })
      encodeString storeString,
    Field.make "CardChangeable" "card_changeable" (fun s => s.CardChangeable) (fun s v => { s with CardChangeable := v })
      encodeBool storeBool,
    Field.make "Title" "title" (fun s => s.Title) (fun s v => { s with Title := v })
      encodeString storeString,
    Field.make "TitleExpireTimeUnix" "title_expire_time" (fun s => s.TitleExpireTimeUnix) (fun s v => { s with TitleExpireTimeUnix := v })
      encodeInt storeInt,
    Field.make "Level" "level" (fun s => s.Level) (fun s v => { s with Level := v })
      encodeString storeString,
    Field.make "Role" "role" (fun s => s.Role) (fun s v => { s with Role := v })
      encodeString storeString,
    Field.make "Unfriendly" "unfriendly" (fun s => s.Unfriendly) (fun s v => { s with Unfriendly := v })
      encodeBool storeBool,
    Field.make "JoinTimeUnix" "join_time" (fun s => s.JoinTimeUnix) (fun s v => { s with JoinTimeUnix := v })
      encodeInt storeInt,
    Field.make "LastSentTimeUnix" "last_sent_time" (fun s => s.LastSentTimeUnix) (fun s v => { s with LastSentTimeUnix := v })
      encodeInt storeInt,
    Field.make "AnonymousID" "anonymous_id" (fun s => s.AnonymousID) (fun s v => { s with AnonymousID := v })
      encodeInt storeInt,
    Field.make "AnonymousName" "anonymous_name" (fun s => s.AnonymousName) (fun s v => { s with AnonymousName := v })
      encodeString storeString,
    Field.make "AnonymousFlag" "anonymous_flag" (fun s => s.AnonymousFlag) (fun s v => { s with AnonymousFlag := v })
      encodeString storeString ]

/-- The fields of `Update` with their tags, `Text` and `Message` (tagged
`json:"-"`) included.  The codec that `encoding/json` would apply to a
`*Message` involves the package `cqcode`; it is taken as the parameters
`messageEncode` and `messageStore`. -/
def updateFields {Content : Type} (messageEncode : Option (Message Content) → JSON)
    (messageStore :
      (String → String) → JSON → Option (Message Content) → Option (Message Content) × Bool) :
    List (Field (Update Content)) :=
  [
    Field.make "Time" "time" (fun s => s.Time) (fun s v => { s with Time := v })
      encodeInt storeInt,
    Field.make "PostType" "post_type" (fun s => s.PostType) (fun s v => { s with PostType := v })
      encodeString storeString,
    Field.make "MessageType" "message_type" (fun s => s.MessageType) (fun s v => { s with MessageType := v })
      encodeString storeString,
    Field.make "SubType" "sub_type" (fun s => s.SubType) (fun s v => { s with SubType := v })
      encodeString storeString,
    Field.make "MessageID" "message_id" (fun s => s.MessageID) (fun s v => { s with MessageID := v })
      encodeInt storeInt,
    Field.make "GroupID" "group_id" (fun s => s.GroupID) (fun s v => { s with GroupID := v })
      encodeInt storeInt,
    Field.make "DiscussID" "discuss_id" (fun s => s.DiscussID) (fun s v => { s with DiscussID := v })
      encodeInt storeInt,
    Field.make "UserID" "user_id" (fun s => s.UserID) (fun s v => { s with UserID := v })
      encodeInt storeInt,
    Field.make "Font" "font" (fun s => s.Font) (fun s v => { s with Font := v })
      encodeInt storeInt,
    Field.make "RawMessage" "message" (fun s => s.RawMessage) (fun s v => { s with RawMessage := v })
      encodeAny storeInterface,
    Field.make "Anonymous" "anonymous" (fun s => s.Anonymous) (fun s v => { s with Anonymous := v })
      encodeAny storeInterface,
    Field.make "AnonymousFlag" "anonymous_flag" (fun s => s.AnonymousFlag) (fun s v => { s with AnonymousFlag := v })
      encodeString storeString,
    Field.make "Event" "event" (fun s => s.Event) (fun s v => { s with Event := v })
      encodeString storeString,
    Field.make "NoticeType" "notice_type" (fun s => s.NoticeType) (fun s v => { s with NoticeType := v })
      encodeString storeString,
    Field.make "OperatorID" "operator_id" (fun s => s.OperatorID) (fun s v => { s with OperatorID := v })
      encodeInt storeInt,
    Field.makeNested "File" "file" (fun s => s.File) (fun s v => { s with File := v })
      (encodePtr fileFields) (fun fold => storePtr fold fileFields zeroFile),
    Field.make "RequestType" "request_type" (fun s => s.RequestType) (fun s v => { s with RequestType := v })
      encodeString storeString,
    Field.make "Flag" "flag" (fun s => s.Flag) (fun s v => { s with Flag := v })
      encodeString storeString,
    Field.make "Text" "-" (fun s => s.Text) (fun s v => { s with Text := v })
      encodeString storeString,
    Field.makeNested "Message" "-" (fun s => s.Message) (fun s v => { s with Message := v })
      messageEncode messageStore,
    Field.makeNested "Sender" "sender" (fun s => s.Sender) (fun s v => { s with Sender := v })
      (encodePtr userFields) (fun fold => storePtr fold userFields zeroUser) ]

/-- The fields of `APIResponse` with their tags. -/
def responseFields : List (Field APIResponse) :=
  [
    Field.make "Status" "status" (fun s => s.Status) (fun s v => { s with Status := v })
      encodeString storeString,
    Field.make "Data" "data" (fun s => s.Data) (fun s v => { s with Data := v })
      encodeRaw storeRaw,
    Field.make "RetCode" "retcode" (fun s => s.RetCode) (fun s v => { s with RetCode := v })
      encodeInt storeInt,
    Field.make "Echo" "echo" (fun s => s.Echo) (fun s v => { s with Echo := v })
      encodeAny storeInterface ]

/-- The fields of `WebSocketRequest` with their tags. -/
def requestFields : List (Field WebSocketRequest) :=
  [
    Field.make "Action" "action" (fun s => s.Action) (fun s v => { s with Action := v })
      encodeString storeString,
    Field.make "Params" "params" (fun s => s.Params) (fun s v => { s with Params := v })
      encodeMap storeMap,
    Field.make "Echo" "echo" (fun s => s.Echo) (fun s v => { s with Echo := v })
      encodeAny storeInterface ]

/-- The result of `json.Marshal` on an `Update`. -/
def encodeUpdate {Content : Type} (messageEncode : Option (Message Content) → JSON)
    (messageStore :
      (String → String) → JSON → Option (Message Content) → Option (Message Content) × Bool)
    (u : Update Content) : JSON :=
  encodeStruct (updateFields messageEncode messageStore) u

/-- The effect of `json.Unmarshal(data, &u)` on an `Update`: the update
afterwards, and whether no error was reported. -/
def decodeUpdate {Content : Type} (fold : String → String)
    (messageEncode : Option (Message Content) → JSON)
    (messageStore :
      (String → String) → JSON → Option (Message Content) → Option (Message Content) × Bool)
    (j : JSON) (u : Update Content) : Update Content × Bool :=
  decodeStruct fold (updateFields messageEncode messageStore) j u

/-- The result of `json.Marshal` on a `WebSocketRequest`. -/
def encodeRequest (r : WebSocketRequest) : JSON := encodeStruct requestFields r

/-- The effect of `json.Unmarshal(data, &r)` on an `APIResponse`. -/
def decodeResponse (fold : String → String) (j : JSON) (r : APIResponse) : APIResponse × Bool :=
  decodeStruct fold responseFields j r

/-- The value of the member `key` of a JSON object (the last one, as a decoder
reads it), if any. -/
def JSON.member (key : String) : JSON → Option JSON
  | .object members => (members.reverse.find? (fun kv => kv.1 == key)).map (fun kv => kv.2)
  | _ => none

/-- The response paired with a request: a JSON object whose `echo` member is
the `echo` member of the encoded request (the remote end returns it
unchanged), next to a `status`, a `data` and a `retcode` of its own. -/
def pairedResponse (status : String) (data : JSON) (retcode : Int) (request : JSON) : JSON :=
  .object [("status", .string status), ("data", data), ("retcode", .number retcode),
    ("echo", (request.member "echo").getD .null)]

/-- A name folding for examples: ASCII letters to lower case. -/
def asciiFold (s : String) : String := String.mk (s.data.map Char.toLower)

mutual
/-- The values that `encoding/json` itself stores in an `interface{}`: nil, a
bool, a finite float64 (an integer that a float64 holds exactly, or a
non-integer `m / 2^k` with `m` odd, below `2^53` in magnitude, and
`1 ≤ k ≤ 1074`), a string of valid UTF-8, a slice of such values, a map of
such values (its entries in strictly increasing key order, the form
`objectInterface` builds). -/
def GoValue.isJSONNative : GoValue → Bool
  | .nil => true
  | .bool _ => true
  | .int _ => false
  | .float64 x => decide (convertNumber x = some x)
  | .string _ => true
  | .slice items => itemsNative items
  | .map entries => entriesNative entries
  | .float64frac m k =>
    decide (m % 2 = 1) && decide (m.natAbs < 2 ^ 53) && decide (1 ≤ k) && decide (k ≤ 1074)
  | .rawString _ => false
termination_by structural x => x
/-- All elements of a slice are native. -/
def itemsNative : List GoValue → Bool
  | [] => true
  | x :: xs => x.isJSONNative && itemsNative xs
termination_by structural x => x
/-- All values of a map are native and its keys strictly increase. -/
def entriesNative : List (String × GoValue) → Bool
  | [] => true
  | (k, v) :: rest =>
    v.isJSONNative && rest.all (fun kv => lessChars k.data kv.1.data) && entriesNative rest
termination_by structural x => x
end


/-- The echo round trip: the `Echo` of the `APIResponse` `r` after decoding into
it the response paired with the encoded request whose `Echo` is `e`. -/
def echoRoundTrip (fold : String → String) (action : String)
    (params : Option (List (String × GoValue))) (status : String) (data : JSON) (retcode : Int)
    (r : APIResponse) (e : GoValue) : GoValue :=
  (decodeResponse fold (pairedResponse status data retcode
    (encodeRequest { Action := action, Params := params, Echo := e })) r).1.Echo

/-- The float64 nearest to an integer, given as an integer. -/
def nearestFloat64 (i : Int) : Int :=
  if i < 0 then -(roundFloat64 i.natAbs : Int) else (roundFloat64 i.natAbs : Int)

/-! ## `strconv.ParseInt` -/

/-- The two errors of the `strconv` parsers: `ErrSyntax` and `ErrRange`. -/
inductive NumError where
  | errSyntax
  | errRange
  deriving DecidableEq, Repr

/-- The Go conversion `int64(x)`: the value wrapped into the int64 range. -/
def toInt64 (x : Int) : Int := (x + (2 : Int) ^ 63) % (2 : Int) ^ 64 - (2 : Int) ^ 63

/-- The digit loop of `strconv.ParseUint(s, 10, 64)`: every byte must be a
decimal digit; `n >= cutoff` (with `cutoff = maxUint64/10 + 1`) and a wrap of
`n*10 + d` are range errors. -/
def parseUintLoop : List Char → Nat → Except NumError Nat
  | [], n => .ok n
  | c :: cs, n =>
    if 48 ≤ c.toNat ∧ c.toNat ≤ 57 then
      if (2 ^ 64 - 1) / 10 + 1 ≤ n then .error .errRange
      else
        let n10 := (n * 10) % 2 ^ 64
        let n1 := (n10 + (c.toNat - 48)) % 2 ^ 64
        if n1 < n10 ∨ 2 ^ 64 - 1 < n1 then .error .errRange
        else parseUintLoop cs n1
    else .error .errSyntax

/-- Model of `strconv.ParseUint(s, 10, 64)` on the bytes of `s`. -/
def ParseUint (s : List Char) : Except NumError Nat :=
  match s with
  | [] => .error .errSyntax
  | _ :: _ => parseUintLoop s 0

/-- The part of `strconv.ParseInt` after the sign has been taken off: a syntax
error of `ParseUint` is passed on, a range error counts as the largest
magnitude, and the magnitude is checked against `1 << 63`. -/
def parseIntSigned (neg : Bool) (digits : List Char) : Except NumError Int :=
  match ParseUint digits with
  | .error .errSyntax => .error .errSyntax
  | r =>
    let un : Nat := match r with
      | .ok n => n
      | .error _ => 2 ^ 64 - 1
    if !neg && decide (2 ^ 63 ≤ un) then .error .errRange
    else if neg && decide (2 ^ 63 < un) then .error .errRange
    else
      let n := toInt64 (un : Int)
      .ok (if neg then toInt64 (-n) else n)

/-- Model of `strconv.ParseInt(s, 10, 64)`: an empty string is a syntax error,
a leading `+` or `-` is the sign. -/
def ParseInt (s : String) : Except NumError Int :=
  match s.data with
  | [] => .error .errSyntax
  | c :: t =>
    if c = '+' then parseIntSigned false t
    else if c = '-' then parseIntSigned true t
    else parseIntSigned false (c :: t)

/-! ## The update normalizer

The normalizer that fills `Text` and `Message` of a decoded `Update` is not in
`types.go`; it is modelled from section 4.4 of the specification.  The
formatting sublanguage (package `cqcode`) it calls is a parameter. -/

/-- The formatting sublanguage as the normalizer uses it: how a raw message in
either wire shape (a plain string, a list of segments) is read as content,
which may fail, and how content is flattened to plain text. -/
structure Formatter (Content : Type) where
  parseString : String → Option Content
  parseSegments : List GoValue → Option Content
  flatten : Content → String

/-- A formatter for plain text only: a string is its own content, a segment
list is not understood. -/
def plainFormatter : Formatter String :=
  { parseString := fun s => some s, parseSegments := fun _ => none, flatten := fun s => s }

/-- Modelled from the spec: the normalizer is not in the sources.  The raw
`message` field is tried in both known wire shapes, plain string and
structured segment list; the one that decodes gives the content. -/
def parseRawMessage {Content : Type} (fmt : Formatter Content) (raw : GoValue) :
    Option Content :=
  match raw with
  | .string s => fmt.parseString s
  | .slice items => fmt.parseSegments items
  | _ => none

/-- Modelled from the spec: the normalizer is not in the sources.  The text of
a raw message is its content flattened, and the empty text when neither shape
decodes. -/
def flattenRaw {Content : Type} (fmt : Formatter Content) (raw : GoValue) : String :=
  match parseRawMessage fmt raw with
  | some c => fmt.flatten c
  | none => ""

/-- Modelled from the spec: the normalizer is not in the sources.  The id of
the chat is the one of `GroupID`, `DiscussID`, `UserID` that goes with
`MessageType`; an unknown message type gets the zero id. -/
def chatID {Content : Type} (u : Update Content) : Int :=
  if u.MessageType = "group" then u.GroupID
  else if u.MessageType = "discuss" then u.DiscussID
  else if u.MessageType = "private" then u.UserID
  else 0

/-- Modelled from the spec: the normalizer is not in the sources.  The sender
is `Sender`, and a minimal user made from `UserID` when `Sender` is absent. -/
def senderOf {Content : Type} (u : Update Content) : User :=
  match u.Sender with
  | some s => s
  | none => { zeroUser with ID := u.UserID }

/-- Modelled from the spec: the normalizer is not in the sources.  For a
message event (`PostType` is "message") it builds the chat from `MessageType`
and the matching id, takes the sender, parses and flattens the raw message and
assembles the `Message`; for any other event `Message` is left as it is.
`Text` is the flattened raw message in both cases, and no wire field is
written.  (The two `SubType` fields follow the comments of `types.go`: the one
of the chat is meant for private chats, the one of the message for group
chats.) -/
def normalize {Content : Type} (fmt : Formatter Content) (u : Update Content) :
    Update Content :=
  if u.PostType = "message" then
    { u with
      Text := flattenRaw fmt u.RawMessage,
      Message := some
        { Embedded := parseRawMessage fmt u.RawMessage,
          MessageID := u.MessageID,
          From := some (senderOf u),
          Chat := some
            { ID := chatID u, Type_ := u.MessageType,
              SubType := if u.MessageType = "private" then u.SubType else "" },
          Text := flattenRaw fmt u.RawMessage,
          SubType := if u.MessageType = "group" then u.SubType else "",
          Font := u.Font } }
  else
    { u with Text := flattenRaw fmt u.RawMessage }

/-! ## Specification-side definitions -/

/-- The decimal numeral of a natural number as the claim words it: its base-10
digits, most significant first, and the single digit `0` for zero. -/
def decimalNat (n : Nat) : List Char :=
  if n = 0 then ['0'] else ((Nat.digits 10 n).reverse).map (fun d => Char.ofNat (48 + d))

/-- The base-10 decimal string of an integer, with a leading `-` for a
negative one (specification side, to be compared with `FormatInt`). -/
def decimalString (i : Int) : String :=
  String.mk (if i < 0 then '-' :: decimalNat i.natAbs else decimalNat i.natAbs)

/-- Number of the three chat predicates that hold of `c`. -/
def Chat.predicateCount (c : Chat) : Nat :=
  (if c.IsPrivate then 1 else 0) + (if c.IsGroup then 1 else 0) + (if c.IsDiscuss then 1 else 0)

/-- The three name strings of a user are all empty, so that `Name()` falls
through to the id. -/
def User.nameless (u : User) : Prop :=
  u.AnonymousName = "" ∧ u.Card = "" ∧ u.NickName = ""

/-! ## Lemmas on `FormatInt` -/

theorem formatDigits_ne_nil (cap u : Nat) (acc : List Char) : formatDigits cap u acc ≠ [] := by
  induction cap generalizing u acc with
  | zero => simp [formatDigits]
  | succ cap ih =>
    unfold formatDigits
    split
    · exact ih _ _
    · simp

theorem formatDigits_eq_digits (cap : Nat) :
    ∀ (u : Nat) (acc : List Char), 0 < u → u < 10 ^ (cap + 1) →
      formatDigits cap u acc
        = ((Nat.digits 10 u).reverse).map (fun d => Char.ofNat (48 + d)) ++ acc := by
  induction cap with
  | zero =>
    intro u acc hpos hlt
    have hu : u < 10 := by simpa using hlt
    have hd : Nat.digits 10 u = [u] := Nat.digits_of_lt 10 u (by omega) hu
    simp [formatDigits, hd, digitByte, Nat.mod_eq_of_lt hu]
  | succ cap ih =>
    intro u acc hpos hlt
    unfold formatDigits
    by_cases h10 : 10 ≤ u
    · have hq : 0 < u / 10 := Nat.div_pos h10 (by norm_num)
      have hql : u / 10 < 10 ^ (cap + 1) := by
        rw [Nat.div_lt_iff_lt_mul (by norm_num)]
        calc u < 10 ^ (cap + 1 + 1) := hlt
          _ = 10 ^ (cap + 1) * 10 := by ring
      have hd : Nat.digits 10 u = (u % 10) :: Nat.digits 10 (u / 10) :=
        Nat.digits_def' (by norm_num) hpos
      rw [if_pos h10, ih (u / 10) _ hq hql, hd]
      simp [digitByte]
    · have hu : u < 10 := by omega
      have hd : Nat.digits 10 u = [u] := Nat.digits_of_lt 10 u (by omega) hu
      rw [if_neg h10, hd]
      simp [digitByte]

theorem formatDigits_eq_decimalNat (u : Nat) (h : u < 2 ^ 64) :
    formatDigits 64 u [] = decimalNat u := by
  unfold decimalNat
  by_cases h0 : u = 0
  · subst h0; simp [formatDigits, digitByte]
  · rw [if_neg h0, formatDigits_eq_digits 64 u [] (Nat.pos_of_ne_zero h0)
      (lt_trans h (by norm_num))]
    simp

theorem FormatInt_eq_decimalString (i : Int) (h : isInt64 i) :
    FormatInt i = decimalString i := by
  obtain ⟨hlo, hhi⟩ := h
  unfold FormatInt formatBits decimalString toUint64
  by_cases hneg : i < 0
  · have hm : (i % (2 : Int) ^ 64).toNat = 2 ^ 64 - i.natAbs := by omega
    have hu : (2 ^ 64 - (2 ^ 64 - i.natAbs)) % 2 ^ 64 = i.natAbs := by omega
    simp only [hneg, decide_True, if_true, hm, hu]
    rw [formatDigits_eq_decimalNat _ (by omega)]
  · have hm : (i % (2 : Int) ^ 64).toNat = i.natAbs := by omega
    simp only [hneg, decide_False, if_false, hm, Bool.false_eq_true]
    rw [formatDigits_eq_decimalNat _ (by omega)]

theorem FormatInt_ne_empty (i : Int) : FormatInt i ≠ "" := by
  unfold FormatInt formatBits
  intro h
  have h2 := congrArg String.data h
  simp only at h2
  split at h2
  · simp at h2
  · exact formatDigits_ne_nil _ _ _ h2

/-! ## User.Name and User.String -/

/-- C1: `Name()` returns the first non-empty of `AnonymousName`, `Card`,
`NickName`, in that order, and when all three are empty the base-10 decimal
string of `ID` (with a leading `-` for a negative id). -/
theorem Name_precedence (u : User) (hid : isInt64 u.ID) :
    (u.AnonymousName ≠ "" → u.Name = u.AnonymousName) ∧
    (u.AnonymousName = "" → u.Card ≠ "" → u.Name = u.Card) ∧
    (u.AnonymousName = "" → u.Card = "" → u.NickName ≠ "" → u.Name = u.NickName) ∧
    (u.AnonymousName = "" → u.Card = "" → u.NickName = "" →
      u.Name = decimalString u.ID) := by
  refine ⟨?_, ?_, ?_, ?_⟩
  · intro h; simp [User.Name, h]
  · intro h1 h2; simp [User.Name, h1, h2]
  · intro h1 h2 h3; simp [User.Name, h1, h2, h3]
  · intro h1 h2 h3
    simp [User.Name, h1, h2, h3, FormatInt_eq_decimalString u.ID hid]

/-- The three examples of C1: ("A", "C", "N", 42) gives "A"; ("", "C", "N")
gives "C"; all strings empty with id 42 gives "42". -/
theorem Name_precedence_witness :
    ({ zeroUser with AnonymousName := "A", Card := "C", NickName := "N", ID := 42 } : User).Name
        = "A" ∧
    ({ zeroUser with Card := "C", NickName := "N", ID := 42 } : User).Name = "C" ∧
    ({ zeroUser with ID := 42 } : User).Name = "42" ∧
    ({ zeroUser with ID := -42 } : User).Name = "-42" := by
  refine ⟨?_, ?_, ?_, ?_⟩
  · exact (Name_precedence
      { zeroUser with AnonymousName := "A", Card := "C", NickName := "N", ID := 42 }
      (by decide)).1 (by decide)
  · exact (Name_precedence { zeroUser with Card := "C", NickName := "N", ID := 42 }
      (by decide)).2.1 (by decide) (by decide)
  · have h := (Name_precedence { zeroUser with ID := 42 } (by decide)).2.2.2
      (by decide) (by decide) (by decide)
    rw [h]
    simp [decimalString, decimalNat, zeroUser]
  · have h := (Name_precedence { zeroUser with ID := -42 } (by decide)).2.2.2
      (by decide) (by decide) (by decide)
    rw [h]
    simp [decimalString, decimalNat, zeroUser]

/-- C2: for every user, whatever the strings and the id (0 and the minimum
int64 included), `Name()` is defined and is not the empty string. -/
theorem Name_ne_empty (u : User) : u.Name ≠ "" ∧ 0 < u.Name.length := by
  have h : u.Name ≠ "" := by
    unfold User.Name
    split
    · rename_i h; simpa using h
    · split
      · rename_i h; simpa using h
      · split
        · rename_i h; simpa using h
        · exact FormatInt_ne_empty _
  refine ⟨h, ?_⟩
  rcases hd : u.Name with ⟨l⟩
  cases l with
  | nil => exact absurd hd h
  | cons a t => simp [String.length]

/-- C3: `String()` is `"[" ++ Title ++ "]" ++ Name()` when the title is not
empty and `Name()` itself when it is; title and name appear verbatim, character
by character. -/
theorem String_format (u : User) :
    (u.Title ≠ "" → u.String = "[" ++ u.Title ++ "]" ++ u.Name ∧
        u.String.data = '[' :: (u.Title.data ++ ']' :: u.Name.data)) ∧
    (u.Title = "" → u.String = u.Name) := by
  constructor
  · intro h
    have hs : u.String = "[" ++ u.Title ++ "]" ++ u.Name := by simp [User.String, h]
    refine ⟨hs, ?_⟩
    rw [hs]
    simp [String.data_append]
  · intro h
    simp [User.String, h]

/-- The two examples of C3: title "VIP" with name "C" gives "[VIP]C", an empty
title gives "C". -/
theorem String_format_witness :
    ({ zeroUser with Title := "VIP", Card := "C" } : User).String = "[VIP]C" ∧
    ({ zeroUser with Card := "C" } : User).String = "C" := by
  constructor
  · have h := ((String_format { zeroUser with Title := "VIP", Card := "C" }).1 (by decide)).1
    rw [h]; decide
  · have h := (String_format { zeroUser with Card := "C" }).2 (by decide)
    rw [h]; decide

/-- C4: the docstring of `String()` promises the card (else the nickname); at
the user with title "VIP" and card "C" the code returns "[VIP]C", and at the
user with anonymous name "A" and card "C" it returns "A", in both cases not
the card. -/
theorem String_is_card_counterexample :
    (({ zeroUser with Title := "VIP", Card := "C" } : User).Card ≠ "" ∧
      ({ zeroUser with Title := "VIP", Card := "C" } : User).String = "[VIP]C" ∧
      ({ zeroUser with Title := "VIP", Card := "C" } : User).String
        ≠ ({ zeroUser with Title := "VIP", Card := "C" } : User).Card) ∧
    (({ zeroUser with AnonymousName := "A", Card := "C" } : User).Card ≠ "" ∧
      ({ zeroUser with AnonymousName := "A", Card := "C" } : User).String = "A" ∧
      ({ zeroUser with AnonymousName := "A", Card := "C" } : User).String
        ≠ ({ zeroUser with AnonymousName := "A", Card := "C" } : User).Card) := by
  decide

/-- Where the docstring of `String()` does hold: for a user with an empty
title and an empty anonymous name, `String()` is the card when the card is not
empty, and otherwise the nickname when the nickname is not empty. -/
theorem String_card_then_nickname (u : User) (ht : u.Title = "")
    (ha : u.AnonymousName = "") :
    (u.Card ≠ "" → u.String = u.Card) ∧
    (u.Card = "" → u.NickName ≠ "" → u.String = u.NickName) := by
  constructor
  · intro h; simp [User.String, User.Name, ht, ha, h]
  · intro h1 h2; simp [User.String, User.Name, ht, ha, h1, h2]

/-- The docstring of `String()` at a user with card "C" and at one with only
the nickname "N". -/
theorem String_card_then_nickname_witness :
    ({ zeroUser with Card := "C", NickName := "N" } : User).String = "C" ∧
    ({ zeroUser with NickName := "N" } : User).String = "N" := by
  constructor
  · exact (String_card_then_nickname { zeroUser with Card := "C", NickName := "N" }
      (by decide) (by decide)).1 (by decide)
  · exact (String_card_then_nickname { zeroUser with NickName := "N" }
      (by decide) (by decide)).2 (by decide) (by decide)

/-! ## Chat predicates -/

/-- C5: each chat predicate holds exactly when `Type` is the corresponding
literal; the comparison is case-sensitive and untrimmed ("Private", " group"
and "" satisfy none), and `ID` and `SubType` have no influence. -/
theorem Chat_predicates_exact (c : Chat) (id : Int) (st : String) :
    (c.IsPrivate = true ↔ c.Type_ = "private") ∧
    (c.IsGroup = true ↔ c.Type_ = "group") ∧
    (c.IsDiscuss = true ↔ c.Type_ = "discuss") ∧
    (∀ t ∈ ["Private", " group", "group ", "GROUP", "Discuss", ""],
      ({ c with Type_ := t } : Chat).IsPrivate = false ∧
      ({ c with Type_ := t } : Chat).IsGroup = false ∧
      ({ c with Type_ := t } : Chat).IsDiscuss = false) ∧
    ({ c with ID := id, SubType := st } : Chat).IsPrivate = c.IsPrivate ∧
    ({ c with ID := id, SubType := st } : Chat).IsGroup = c.IsGroup ∧
    ({ c with ID := id, SubType := st } : Chat).IsDiscuss = c.IsDiscuss := by
  refine ⟨?_, ?_, ?_, ?_, rfl, rfl, rfl⟩
  · simp [Chat.IsPrivate]
  · simp [Chat.IsGroup]
  · simp [Chat.IsDiscuss]
  · intro t ht
    simp only [Chat.IsPrivate, Chat.IsGroup, Chat.IsDiscuss]
    revert t
    decide

/-- C6: at most one of the three chat predicates holds; exactly one holds iff
`Type` is one of "private", "group", "discuss", and for any other `Type` all
three are false. -/
theorem Chat_predicates_exclusive (c : Chat) :
    c.predicateCount ≤ 1 ∧
    (c.predicateCount = 1 ↔ c.Type_ ∈ ["private", "group", "discuss"]) ∧
    (c.Type_ ∉ ["private", "group", "discuss"] →
      c.IsPrivate = false ∧ c.IsGroup = false ∧ c.IsDiscuss = false) := by
  unfold Chat.predicateCount Chat.IsPrivate Chat.IsGroup Chat.IsDiscuss
  by_cases h1 : c.Type_ = "private"
  · simp [h1]
  · by_cases h2 : c.Type_ = "group"
    · simp [h2]
    · by_cases h3 : c.Type_ = "discuss"
      · simp [h3]
      · simp [h1, h2, h3]

/-- C6 at a group chat and at a chat of unknown type. -/
theorem Chat_predicates_exclusive_witness :
    ({ ID := 1001, Type_ := "group", SubType := "" } : Chat).predicateCount = 1 ∧
    (({ ID := 1, Type_ := "channel", SubType := "" } : Chat).IsPrivate = false ∧
      ({ ID := 1, Type_ := "channel", SubType := "" } : Chat).IsGroup = false ∧
      ({ ID := 1, Type_ := "channel", SubType := "" } : Chat).IsDiscuss = false) := by
  constructor
  · exact (Chat_predicates_exclusive { ID := 1001, Type_ := "group", SubType := "" }).2.1.mpr
      (by decide)
  · exact (Chat_predicates_exclusive { ID := 1, Type_ := "channel", SubType := "" }).2.2
      (by decide)

/-! ## Message predicates -/

/-- C7: `IsAnonymous()` holds exactly when `SubType` is "anonymous" and
`IsNotice()` exactly when it is "notice"; for every other `SubType` ("normal",
the empty string, an unknown value) both are false, and no other field of the
message has any influence. -/
theorem Message_predicates_exact {Content : Type} (m m2 : Message Content) :
    (m.IsAnonymous = true ↔ m.SubType = "anonymous") ∧
    (m.IsNotice = true ↔ m.SubType = "notice") ∧
    (m.SubType ≠ "anonymous" → m.SubType ≠ "notice" →
      m.IsAnonymous = false ∧ m.IsNotice = false) ∧
    (∀ t ∈ ["normal", "", "Anonymous", "notice ", "unknown"],
      ({ m with SubType := t } : Message Content).IsAnonymous = false ∧
      ({ m with SubType := t } : Message Content).IsNotice = false) ∧
    (m2.SubType = m.SubType →
      m2.IsAnonymous = m.IsAnonymous ∧ m2.IsNotice = m.IsNotice) := by
  refine ⟨?_, ?_, ?_, ?_, ?_⟩
  · simp [Message.IsAnonymous]
  · simp [Message.IsNotice]
  · intro h1 h2; simp [Message.IsAnonymous, Message.IsNotice, h1, h2]
  · intro t ht
    simp only [Message.IsAnonymous, Message.IsNotice]
    revert t
    decide
  · intro h; simp [Message.IsAnonymous, Message.IsNotice, h]

/-- C7 at a message with `SubType` "normal" and at two messages that differ in
every field but `SubType`. -/
theorem Message_predicates_exact_witness :
    (({ zeroMessage Unit with SubType := "normal" } : Message Unit).IsAnonymous = false ∧
      ({ zeroMessage Unit with SubType := "normal" } : Message Unit).IsNotice = false) ∧
    (({ zeroMessage Unit with SubType := "notice", Embedded := some (), MessageID := 2,
                                 From := some zeroUser, Text := "yo", Font := 3 } : Message Unit).IsNotice
      = ({ zeroMessage Unit with SubType := "notice" } : Message Unit).IsNotice) := by
  constructor
  · exact (Message_predicates_exact
      ({ zeroMessage Unit with SubType := "normal" } : Message Unit)
      ({ zeroMessage Unit with SubType := "normal" } : Message Unit)).2.2.1
        (by decide) (by decide)
  · exact ((Message_predicates_exact
      ({ zeroMessage Unit with SubType := "notice" } : Message Unit)
      ({ zeroMessage Unit with SubType := "notice", Embedded := some (), MessageID := 2,
                                 From := some zeroUser, Text := "yo", Font := 3 } : Message Unit)).2.2.2.2 rfl).2

/-- C8: `IsAnonymous()` and `IsNotice()` are never both true. -/
theorem Message_predicates_exclusive {Content : Type} (m : Message Content) :
    ¬ (m.IsAnonymous = true ∧ m.IsNotice = true) := by
  simp only [Message.IsAnonymous, Message.IsNotice, beq_iff_eq]
  rintro ⟨h1, h2⟩
  rw [h1] at h2
  exact absurd h2 (by decide)

/-! ## The wire form of the envelopes and of `Update` -/

theorem findField_some {S : Type} (fold : String → String) (fields : List (Field S))
    (key : String) (f : Field S) (h : findField fold fields key = some f) :
    f ∈ fields ∧ f.jsonName ≠ none := by
  unfold findField at h
  split at h
  · rename_i g hg
    cases h
    refine ⟨List.mem_of_find?_eq_some hg, ?_⟩
    have hp := List.find?_some hg
    intro hn
    simp [hn] at hp
  · refine ⟨List.mem_of_find?_eq_some h, ?_⟩
    have hp := List.find?_some h
    intro hn
    simp [hn] at hp

theorem updateFields_store_keeps {Content : Type}
    (messageEncode : Option (Message Content) → JSON)
    (messageStore :
      (String → String) → JSON → Option (Message Content) → Option (Message Content) × Bool)
    (f : Field (Update Content)) (hf : f ∈ updateFields messageEncode messageStore)
    (hn : f.jsonName ≠ none) (fold : String → String) (j : JSON) (u : Update Content) :
    (f.store fold j u).1.Text = u.Text ∧ (f.store fold j u).1.Message = u.Message := by
  simp only [updateFields, List.mem_cons, List.mem_singleton, List.not_mem_nil, or_false] at hf
  rcases hf with h | h | h | h | h | h | h | h | h | h | h | h | h | h | h | h | h | h | h | h | h
  all_goals first
    | (subst h; exact ⟨rfl, rfl⟩)
    | (subst h; exact absurd rfl hn)

theorem decodeMembers_keeps {Content : Type} (fold : String → String)
    (messageEncode : Option (Message Content) → JSON)
    (messageStore :
      (String → String) → JSON → Option (Message Content) → Option (Message Content) × Bool)
    (members : List (String × JSON)) :
    ∀ u : Update Content,
      (decodeMembers fold (updateFields messageEncode messageStore) members u).1.Text = u.Text ∧
      (decodeMembers fold (updateFields messageEncode messageStore) members u).1.Message
        = u.Message := by
  induction members with
  | nil => intro u; exact ⟨rfl, rfl⟩
  | cons kv rest ih =>
    intro u
    obtain ⟨k, v⟩ := kv
    unfold decodeMembers
    split
    · exact ih u
    · rename_i f hf
      obtain ⟨hmem, hname⟩ := findField_some fold _ k f hf
      have h1 := updateFields_store_keeps messageEncode messageStore f hmem hname fold v u
      have h2 := ih (f.store fold v u).1
      exact ⟨h2.1.trans h1.1, h2.2.trans h1.2⟩

/-- C10: `Text` and `Message` are not part of the wire form of an `Update`:
the encoding does not depend on them (two updates that agree on every other
field have the same encoding), and decoding any JSON value leaves both
as they were, whatever the keys (of an object with the keys "Text", "Message",
"text" and "-" only "Message" is stored, by case folding, into `RawMessage`,
the field tagged "message"). -/
theorem Update_derived_fields_off_wire {Content : Type} (fold : String → String)
    (messageEncode : Option (Message Content) → JSON)
    (messageStore :
      (String → String) → JSON → Option (Message Content) → Option (Message Content) × Bool)
    (u : Update Content) (t : String) (m : Option (Message Content)) (j : JSON) :
    encodeUpdate messageEncode messageStore { u with Text := t, Message := m }
      = encodeUpdate messageEncode messageStore u ∧
    (∀ u2 : Update Content, { u2 with Text := u.Text, Message := u.Message } = u →
      encodeUpdate messageEncode messageStore u2 = encodeUpdate messageEncode messageStore u) ∧
    (decodeUpdate fold messageEncode messageStore j u).1.Text = u.Text ∧
    (decodeUpdate fold messageEncode messageStore j u).1.Message = u.Message ∧
    decodeUpdate asciiFold messageEncode messageStore
      (.object [("Text", .string "x"), ("Message", .object [("text", .string "y")]),
        ("text", .string "z"), ("-", .string "w")]) u
      = ({ u with RawMessage := .map [("text", .string "y")] }, true) := by
  refine ⟨rfl, ?_, ?_, ?_, rfl⟩
  · intro u2 h
    rw [← h]
    rfl
  · cases j with
    | object members =>
      exact (decodeMembers_keeps fold messageEncode messageStore members u).1
    | _ => rfl
  · cases j with
    | object members =>
      exact (decodeMembers_keeps fold messageEncode messageStore members u).2
    | _ => rfl

/-- C10 at a decoder whose codec for `*Message` would store a message: the
object with the keys "Text" and "post_type" changes `PostType` only. -/
theorem Update_derived_fields_off_wire_witness :
    (decodeUpdate asciiFold (fun _ => JSON.string "m")
      (fun _ _ _ => (some (zeroMessage Unit), true))
      (.object [("Text", .string "new"), ("post_type", .string "message")])
      { zeroUpdate Unit with Text := "old" }).1.Text = "old" ∧
    (decodeUpdate asciiFold (fun _ => JSON.string "m")
      (fun _ _ _ => (some (zeroMessage Unit), true))
      (.object [("Text", .string "new"), ("post_type", .string "message")])
      { zeroUpdate Unit with Text := "old" }).1.Message = none ∧
    (decodeUpdate asciiFold (fun _ => JSON.string "m")
      (fun _ _ _ => (some (zeroMessage Unit), true))
      (.object [("Text", .string "new"), ("post_type", .string "message")])
      { zeroUpdate Unit with Text := "old" }).1.PostType = "message" := by
  have h := Update_derived_fields_off_wire asciiFold (fun _ => JSON.string "m")
    (fun _ _ _ => (some (zeroMessage Unit), true)) { zeroUpdate Unit with Text := "old" }
    "" none (.object [("Text", .string "new"), ("post_type", .string "message")])
  exact ⟨h.2.2.1, h.2.2.2.1, rfl⟩

theorem roundFloat64_exact (n : Nat) (h : n ≤ 2 ^ 53) : roundFloat64 n = n := by
  unfold roundFloat64
  by_cases hlt : n < 2 ^ 53
  · rw [if_pos hlt]
  · have hn : n = 2 ^ 53 := by omega
    subst hn
    have hlog : Nat.log 2 (2 ^ 53) = 53 := Nat.log_pow (by norm_num) 53
    simp only [hlog]
    norm_num

theorem roundFloat64_le (n : Nat) : roundFloat64 n ≤ 2 * n := by
  unfold roundFloat64
  by_cases hlt : n < 2 ^ 53
  · simp only [hlt, if_true]; omega
  · simp only [hlt, if_false]
    have hpos : n ≠ 0 := by
      intro h0; subst h0; exact hlt (by norm_num)
    have hpow : 2 ^ (Nat.log 2 n - 52) ≤ n :=
      le_trans (Nat.pow_le_pow_right (by norm_num) (Nat.sub_le _ _))
        (Nat.pow_log_le_self 2 hpos)
    have hq : n / 2 ^ (Nat.log 2 n - 52) * 2 ^ (Nat.log 2 n - 52) ≤ n := Nat.div_mul_le_self _ _
    split
    · rw [Nat.add_mul]; omega
    · omega

theorem convertNumber_int64 (i : Int) (h : isInt64 i) :
    convertNumber i = some (nearestFloat64 i) := by
  obtain ⟨hlo, hhi⟩ := h
  unfold convertNumber nearestFloat64
  have hb : roundFloat64 i.natAbs ≤ 2 * i.natAbs := roundFloat64_le _
  have hn : i.natAbs ≤ 2 ^ 63 := by omega
  have hbig : (2 : Nat) ^ 65 ≤ 2 ^ 256 * 2 ^ 256 * 2 ^ 256 * 2 ^ 256 := by norm_num
  have hlt : roundFloat64 i.natAbs < 2 ^ 256 * 2 ^ 256 * 2 ^ 256 * 2 ^ 256 := by omega
  simp only [hlt, if_true]

theorem nearestFloat64_exact (i : Int) (h : i.natAbs ≤ 2 ^ 53) : nearestFloat64 i = i := by
  unfold nearestFloat64
  rw [roundFloat64_exact _ h]
  split <;> omega

theorem echoRoundTrip_eq (fold : String → String) (action : String)
    (params : Option (List (String × GoValue))) (status : String) (data : JSON)
    (retcode : Int) (r : APIResponse) (e : GoValue) :
    echoRoundTrip fold action params status data retcode r e
      = (storeInterface (encodeAny e) r.Echo).1 := rfl

theorem lessChars_irrefl (l : List Char) : lessChars l l = false := by
  induction l with
  | nil => rfl
  | cons a t ih => simp [lessChars, ih]

theorem lessChars_asymm : ∀ (a b : List Char), lessChars a b = true → lessChars b a = false
  | _, [], h => by simp [lessChars] at h
  | [], _ :: _, _ => by simp [lessChars]
  | a :: as, b :: bs, h => by
    unfold lessChars at h ⊢
    by_cases h1 : a.toNat < b.toNat
    · have h2 : ¬ b.toNat < a.toNat := by omega
      simp [h1, h2]
    · by_cases h2 : b.toNat < a.toNat
      · simp [h1, h2] at h
      · simp only [h1, h2, if_false] at h ⊢
        exact lessChars_asymm as bs h

theorem mapAssign_front {α : Type} (k : String) (v : α) (l : List (String × α))
    (h : l.all (fun kv => lessChars k.data kv.1.data) = true) :
    mapAssign k v l = (k, v) :: l := by
  cases l with
  | nil => rfl
  | cons kv rest =>
    obtain ⟨k2, v2⟩ := kv
    simp only [List.all_cons, Bool.and_eq_true] at h
    have hne : k ≠ k2 := by
      intro he
      rw [he, lessChars_irrefl] at h
      exact Bool.false_ne_true h.1
    simp [mapAssign, hne, h.1]

theorem mapAssign_back {α : Type} (k : String) (v : α) (l : List (String × α))
    (h : ∀ kv ∈ l, lessChars kv.1.data k.data = true) :
    mapAssign k v l = l ++ [(k, v)] := by
  induction l with
  | nil => rfl
  | cons kv rest ih =>
    obtain ⟨k2, v2⟩ := kv
    have h2 : lessChars k2.data k.data = true := h (k2, v2) (List.mem_cons_self _ _)
    have hne : k ≠ k2 := by
      intro he
      rw [he, lessChars_irrefl] at h2
      exact Bool.false_ne_true h2
    have has : lessChars k.data k2.data = false := lessChars_asymm _ _ h2
    have ih2 := ih (fun kv hkv => h kv (List.mem_cons_of_mem _ hkv))
    simp [mapAssign, hne, has, ih2]

theorem encodeEntries_sorted (m : List (String × GoValue)) (h : entriesNative m = true) :
    encodeEntries m = m.map (fun kv => (kv.1, encodeAny kv.2)) := by
  induction m with
  | nil => rfl
  | cons kv rest ih =>
    obtain ⟨k, v⟩ := kv
    simp only [entriesNative, Bool.and_eq_true] at h
    obtain ⟨⟨_, hk⟩, hrest⟩ := h
    rw [encodeEntries, ih hrest, mapAssign_front]
    · rfl
    · rw [List.all_eq_true] at hk ⊢
      intro x hx
      obtain ⟨y, hy, rfl⟩ := List.mem_map.mp hx
      exact hk y hy

theorem reduceDyadic_odd (m : Int) (k : Nat) (hm : m % 2 = 1) (hk : 1 ≤ k) :
    reduceDyadic m k = (m, k) := by
  cases k with
  | zero => omega
  | succ k =>
    have h0 : ¬ (m % 2 = 0) := by omega
    simp [reduceDyadic, h0]

theorem valueInterface_float64 (x : Int) (h : convertNumber x = some x) :
    valueInterface (encodeAny (.float64 x)) = (.float64 x, true) := by
  by_cases hx : x.natAbs < 10 ^ 21
  · have he : encodeAny (.float64 x) = .number x := by rw [encodeAny, if_pos hx]
    rw [he]
    simp [valueInterface, h]
  · have he : encodeAny (.float64 x) = .fraction x 0 := by rw [encodeAny, if_neg hx]
    rw [he]
    simp [valueInterface, reduceDyadic]

theorem valueInterface_float64frac (m : Int) (k : Nat)
    (h : (GoValue.float64frac m k).isJSONNative = true) :
    valueInterface (encodeAny (.float64frac m k)) = (.float64frac m k, true) := by
  simp only [GoValue.isJSONNative, Bool.and_eq_true, decide_eq_true_eq] at h
  obtain ⟨⟨⟨hm, _⟩, hk⟩, _⟩ := h
  have hk0 : k ≠ 0 := by omega
  simp [encodeAny, valueInterface, reduceDyadic_odd m k hm hk, hk0]

mutual
theorem valueInterface_encodeAny :
    ∀ v : GoValue, v.isJSONNative = true → valueInterface (encodeAny v) = (v, true)
  | .nil, _ => rfl
  | .bool _, _ => rfl
  | .int _, h => by simp [GoValue.isJSONNative] at h
  | .float64 x, h => by
    simp only [GoValue.isJSONNative, decide_eq_true_eq] at h
    exact valueInterface_float64 x h
  | .float64frac m k, h => valueInterface_float64frac m k h
  | .rawString _, h => by simp [GoValue.isJSONNative] at h
  | .string _, _ => rfl
  | .slice items, h => by
    simp only [GoValue.isJSONNative] at h
    simp [encodeAny, valueInterface, arrayInterface_encodeItems items h]
  | .map entries, h => by
    simp only [GoValue.isJSONNative] at h
    have h2 := objectInterface_encoded entries h [] (by simp)
    simp [encodeAny, valueInterface, encodeEntries_sorted entries h, h2]
theorem arrayInterface_encodeItems :
    ∀ xs : List GoValue, itemsNative xs = true → arrayInterface (encodeItems xs) = (xs, true)
  | [], _ => rfl
  | x :: xs, h => by
    simp only [itemsNative, Bool.and_eq_true] at h
    simp [encodeItems, arrayInterface, valueInterface_encodeAny x h.1,
      arrayInterface_encodeItems xs h.2]
theorem objectInterface_encoded :
    ∀ m : List (String × GoValue), entriesNative m = true →
      ∀ acc : List (String × GoValue),
        (∀ a ∈ acc, ∀ b ∈ m, lessChars a.1.data b.1.data = true) →
        objectInterface (m.map (fun kv => (kv.1, encodeAny kv.2))) acc = (acc ++ m, true)
  | [], _, acc, _ => by simp [objectInterface]
  | (k, v) :: rest, h, acc, hacc => by
    simp only [entriesNative, Bool.and_eq_true] at h
    obtain ⟨⟨hv, hk⟩, hrest⟩ := h
    have hback : mapAssign k v acc = acc ++ [(k, v)] :=
      mapAssign_back k v acc (fun a ha => hacc a ha (k, v) (List.mem_cons_self _ _))
    have hnext : ∀ a ∈ acc ++ [(k, v)], ∀ b ∈ rest, lessChars a.1.data b.1.data = true := by
      intro a ha b hb
      rcases List.mem_append.mp ha with ha | ha
      · exact hacc a ha b (List.mem_cons_of_mem _ hb)
      · simp only [List.mem_singleton] at ha
        subst ha
        exact (List.all_eq_true.mp hk) b hb
    have ih := objectInterface_encoded rest hrest (acc ++ [(k, v)]) hnext
    simp [objectInterface, valueInterface_encodeAny v hv, hback, ih]
end

theorem storeInterface_encodeAny (e old : GoValue) (h : e.isJSONNative = true) :
    (storeInterface (encodeAny e) old).1 = e := by
  cases e with
  | nil => rfl
  | bool b => rfl
  | int i => simp [GoValue.isJSONNative] at h
  | float64 x =>
    simp only [GoValue.isJSONNative, decide_eq_true_eq] at h
    by_cases hx : x.natAbs < 10 ^ 21
    · have he : encodeAny (.float64 x) = .number x := by rw [encodeAny, if_pos hx]
      rw [he]
      simp [storeInterface, h]
    · have he : encodeAny (.float64 x) = .fraction x 0 := by rw [encodeAny, if_neg hx]
      rw [he]
      simp [storeInterface, valueInterface, reduceDyadic]
  | float64frac m k =>
    have h2 := valueInterface_float64frac m k h
    simp only [encodeAny] at h2
    simp [encodeAny, storeInterface, h2]
  | rawString bytes => simp [GoValue.isJSONNative] at h
  | string s => rfl
  | slice items =>
    have h2 := valueInterface_encodeAny (.slice items) h
    simp only [encodeAny] at h2
    simp [encodeAny, storeInterface, h2]
  | map entries =>
    have h2 := valueInterface_encodeAny (.map entries) h
    simp only [encodeAny] at h2
    simp [encodeAny, storeInterface, h2]

/-- C9, as stated, fails: the integer echo 12345 is encoded as the JSON number
12345, and the response decoded from it holds the float64 12345, not the
integer. -/
theorem echo_int_counterexample :
    encodeRequest { Action := "send_msg", Params := none, Echo := .int 12345 }
      = .object [("action", .string "send_msg"), ("params", .null), ("echo", .number 12345)] ∧
    echoRoundTrip asciiFold "send_msg" none "ok" .null 0 zeroAPIResponse (.int 12345)
      = .float64 12345 ∧
    echoRoundTrip asciiFold "send_msg" none "ok" .null 0 zeroAPIResponse (.int 12345)
      ≠ .int 12345 := by
  refine ⟨rfl, rfl, ?_⟩
  intro h
  have h2 : GoValue.float64 12345 = GoValue.int 12345 := h
  cases h2

/-- C9, amended: an echo of a kind that `encoding/json` itself stores in an
`interface{}` (nil, bool, finite float64, string of valid UTF-8, slices and
key-ordered maps of these) comes back equal, type included; an echo of type
`int` comes back as the float64 nearest to it, which has the same numeric value
when its magnitude is at most 2^53, and never as an `int`; a string that is
not valid UTF-8 comes back as the text in which U+FFFD stands for each invalid
byte. -/
theorem echo_round_trip (fold : String → String) (action : String)
    (params : Option (List (String × GoValue))) (status : String) (data : JSON)
    (retcode : Int) (r : APIResponse) (e : GoValue) :
    (e.isJSONNative = true →
      echoRoundTrip fold action params status data retcode r e = e) ∧
    (∀ i : Int, e = .int i → isInt64 i →
      echoRoundTrip fold action params status data retcode r e = .float64 (nearestFloat64 i) ∧
      echoRoundTrip fold action params status data retcode r e ≠ e ∧
      (i.natAbs ≤ 2 ^ 53 →
        echoRoundTrip fold action params status data retcode r e = .float64 i)) ∧
    (∀ bytes : List Nat, e = .rawString bytes →
      echoRoundTrip fold action params status data retcode r e
        = .string (toValidUTF8 bytes)) := by
  refine ⟨?_, ?_, ?_⟩
  · intro h
    rw [echoRoundTrip_eq]
    exact storeInterface_encodeAny e r.Echo h
  · intro i he hi
    subst he
    have h1 : echoRoundTrip fold action params status data retcode r (.int i)
        = .float64 (nearestFloat64 i) := by
      rw [echoRoundTrip_eq]
      simp [encodeAny, storeInterface, convertNumber_int64 i hi]
    refine ⟨h1, ?_, ?_⟩
    · rw [h1]; intro h; cases h
    · intro hs
      rw [h1, nearestFloat64_exact i hs]
  · intro bytes he
    subst he
    rfl

/-- The amended C9 at the string "abc", at a nested value with the float64
values 7, 0.5 and -2.75, at the integer 12345, and at the one-byte string
"\xff", which comes back as U+FFFD (three bytes in UTF-8). -/
theorem echo_round_trip_witness :
    echoRoundTrip asciiFold "send_msg" none "ok" .null 0 zeroAPIResponse (.string "abc")
      = .string "abc" ∧
    echoRoundTrip asciiFold "send_msg" none "ok" .null 0 zeroAPIResponse
        (.map [("id", .float64 7), ("ratio", .float64frac 1 1),
          ("tags", .slice [.string "a", .bool true, .nil, .float64frac (-11) 2])])
      = .map [("id", .float64 7), ("ratio", .float64frac 1 1),
          ("tags", .slice [.string "a", .bool true, .nil, .float64frac (-11) 2])] ∧
    echoRoundTrip asciiFold "send_msg" none "ok" .null 0 zeroAPIResponse (.int 12345)
      = .float64 12345 ∧
    (echoRoundTrip asciiFold "send_msg" none "ok" .null 0 zeroAPIResponse (.rawString [255])
      = .string (String.mk [Char.ofNat 65533]) ∧
      (String.mk [Char.ofNat 65533]).utf8ByteSize = 3) := by
  refine ⟨?_, ?_, ?_, ?_, rfl⟩
  · exact (echo_round_trip asciiFold "send_msg" none "ok" .null 0 zeroAPIResponse
      (.string "abc")).1 rfl
  · exact (echo_round_trip asciiFold "send_msg" none "ok" .null 0 zeroAPIResponse
      (.map [("id", .float64 7), ("ratio", .float64frac 1 1),
        ("tags", .slice [.string "a", .bool true, .nil, .float64frac (-11) 2])])).1
      (by decide)
  · exact ((echo_round_trip asciiFold "send_msg" none "ok" .null 0 zeroAPIResponse
      (.int 12345)).2.1 12345 rfl (by decide)).2.2 (by decide)
  · exact (echo_round_trip asciiFold "send_msg" none "ok" .null 0 zeroAPIResponse
      (.rawString [255])).2.2 [255] rfl


/-! ## Parsing the name of a nameless user -/

theorem digit_toNat (d : Nat) (h : d < 10) : (Char.ofNat (48 + d)).toNat = 48 + d := by
  interval_cases d <;> rfl

theorem foldl_digits_le (ds : List Nat) :
    ∀ acc : Nat, acc ≤ ds.foldl (fun a d => a * 10 + d) acc := by
  induction ds with
  | nil => intro acc; exact Nat.le_refl _
  | cons d rest ih =>
    intro acc
    simp only [List.foldl_cons]
    exact le_trans (by omega) (ih (acc * 10 + d))

theorem parseUintLoop_digits (ds : List Nat) :
    ∀ acc : Nat, (∀ d ∈ ds, d < 10) → ds.foldl (fun a d => a * 10 + d) acc < 2 ^ 64 →
      parseUintLoop (ds.map (fun d => Char.ofNat (48 + d))) acc
        = .ok (ds.foldl (fun a d => a * 10 + d) acc) := by
  induction ds with
  | nil => intro acc _ _; rfl
  | cons d rest ih =>
    intro acc hd hlt
    have hd10 : d < 10 := hd d (List.mem_cons_self _ _)
    have hrest : ∀ x ∈ rest, x < 10 := fun x hx => hd x (List.mem_cons_of_mem _ hx)
    simp only [List.foldl_cons] at hlt
    have hstep : acc * 10 + d < 2 ^ 64 := lt_of_le_of_lt (foldl_digits_le rest _) hlt
    have hc := digit_toNat d hd10
    simp only [List.map_cons, List.foldl_cons, parseUintLoop, hc]
    have h1 : 48 ≤ 48 + d ∧ 48 + d ≤ 57 := by omega
    have h2 : ¬ ((2 ^ 64 - 1) / 10 + 1 ≤ acc) := by omega
    have h3 : (acc * 10 % 2 ^ 64 + (48 + d - 48)) % 2 ^ 64 = acc * 10 + d := by omega
    have h4 : ¬ (acc * 10 + d < acc * 10 % 2 ^ 64 ∨ 2 ^ 64 - 1 < acc * 10 + d) := by omega
    rw [if_pos h1, if_neg h2, h3, if_neg h4]
    exact ih (acc * 10 + d) hrest hlt

theorem foldl_reverse_digits (L : List Nat) :
    L.reverse.foldl (fun a d => a * 10 + d) 0 = Nat.ofDigits 10 L := by
  induction L with
  | nil => rfl
  | cons d rest ih =>
    rw [List.reverse_cons, List.foldl_append, ih, Nat.ofDigits_cons]
    simp only [List.foldl_cons, List.foldl_nil]
    omega

theorem decimalNat_ne_nil (n : Nat) : decimalNat n ≠ [] := by
  unfold decimalNat
  split
  · simp
  · rename_i h
    simp only [ne_eq, List.map_eq_nil_iff, List.reverse_eq_nil_iff]
    exact fun h0 => h (Nat.digits_eq_nil_iff_eq_zero.mp h0)

theorem decimalNat_digits (n : Nat) :
    ∃ ds : List Nat, ds ≠ [] ∧ (∀ d ∈ ds, d < 10) ∧
      decimalNat n = ds.map (fun d => Char.ofNat (48 + d)) ∧
      ds.foldl (fun a d => a * 10 + d) 0 = n := by
  unfold decimalNat
  by_cases h0 : n = 0
  · subst h0
    exact ⟨[0], by simp, by simp, by simp, rfl⟩
  · refine ⟨(Nat.digits 10 n).reverse, ?_, ?_, ?_, ?_⟩
    · simp only [ne_eq, List.reverse_eq_nil_iff]
      exact fun h => h0 (Nat.digits_eq_nil_iff_eq_zero.mp h)
    · intro d hd
      exact Nat.digits_lt_base (by norm_num) (List.mem_reverse.mp hd)
    · rw [if_neg h0]
    · rw [foldl_reverse_digits, Nat.ofDigits_digits]

theorem ParseUint_decimalNat (n : Nat) (h : n < 2 ^ 64) : ParseUint (decimalNat n) = .ok n := by
  obtain ⟨ds, hne, hd, heq, hval⟩ := decimalNat_digits n
  rw [heq]
  cases ds with
  | nil => exact absurd rfl hne
  | cons d rest =>
    have hp := parseUintLoop_digits (d :: rest) 0 hd (by rw [hval]; exact h)
    rw [hval] at hp
    simpa [ParseUint] using hp

theorem decimalNat_head (n : Nat) :
    ∃ c t, decimalNat n = c :: t ∧ c ≠ '+' ∧ c ≠ '-' := by
  obtain ⟨ds, hne, hd, heq, _⟩ := decimalNat_digits n
  cases ds with
  | nil => exact absurd rfl hne
  | cons d rest =>
    have hd10 : d < 10 := hd d (List.mem_cons_self _ _)
    refine ⟨Char.ofNat (48 + d), rest.map (fun d => Char.ofNat (48 + d)), by simpa using heq, ?_, ?_⟩
    · intro hc
      have := congrArg Char.toNat hc
      rw [digit_toNat d hd10] at this
      have h43 : ('+' : Char).toNat = 43 := rfl
      omega
    · intro hc
      have := congrArg Char.toNat hc
      rw [digit_toNat d hd10] at this
      have h45 : ('-' : Char).toNat = 45 := rfl
      omega

theorem ParseInt_decimalString (i : Int) (h : isInt64 i) :
    ParseInt (decimalString i) = .ok i := by
  obtain ⟨hlo, hhi⟩ := h
  unfold decimalString ParseInt
  by_cases hneg : i < 0
  · have hp := ParseUint_decimalNat i.natAbs (by omega)
    have hle : ¬ (2 ^ 63 < i.natAbs) := by omega
    have hv : toInt64 (-toInt64 (i.natAbs : Int)) = i := by
      unfold toInt64; omega
    rw [Int.natCast_natAbs] at hv
    have hle2 : ¬ (9223372036854775808 < i.natAbs) := by omega
    simp [hneg, parseIntSigned, hp, hle2, hv]
  · obtain ⟨c, t, hct, hplus, hminus⟩ := decimalNat_head i.natAbs
    have hp := ParseUint_decimalNat i.natAbs (by omega)
    rw [hct] at hp
    have hle : ¬ (2 ^ 63 ≤ i.natAbs) := by omega
    have hv : toInt64 (i.natAbs : Int) = i := by
      unfold toInt64; omega
    rw [Int.natCast_natAbs] at hv
    have hle2 : ¬ (9223372036854775808 ≤ i.natAbs) := by omega
    simp [hneg, hct, hplus, hminus, parseIntSigned, hp, hle2, hv]

/-- C13: for a user whose three name strings are empty, parsing `Name()` as a
base-10 signed 64-bit integer succeeds and gives the id; so two such users
with different ids have different names. -/
theorem Name_parses_to_ID (u v : User) (hu : u.nameless) (hv : v.nameless)
    (hui : isInt64 u.ID) (hvi : isInt64 v.ID) :
    ParseInt u.Name = .ok u.ID ∧ (u.ID ≠ v.ID → u.Name ≠ v.Name) := by
  have key : ∀ w : User, w.nameless → isInt64 w.ID → ParseInt w.Name = .ok w.ID := by
    intro w hw hwi
    obtain ⟨h1, h2, h3⟩ := hw
    have hn : w.Name = FormatInt w.ID := by simp [User.Name, h1, h2, h3]
    rw [hn, FormatInt_eq_decimalString w.ID hwi]
    exact ParseInt_decimalString w.ID hwi
  refine ⟨key u hu hui, ?_⟩
  intro hne heq
  have h1 := key u hu hui
  have h2 := key v hv hvi
  rw [heq, h2] at h1
  exact hne (Except.ok.inj h1).symm

/-- C13 at the users with id 42 and with the minimum int64 as id. -/
theorem Name_parses_to_ID_witness :
    ParseInt ({ zeroUser with ID := 42 } : User).Name = .ok 42 ∧
    ParseInt ({ zeroUser with ID := -9223372036854775808 } : User).Name
      = .ok (-9223372036854775808) ∧
    ({ zeroUser with ID := 42 } : User).Name
      ≠ ({ zeroUser with ID := -9223372036854775808 } : User).Name := by
  have h := Name_parses_to_ID { zeroUser with ID := 42 }
    { zeroUser with ID := -9223372036854775808 } ⟨rfl, rfl, rfl⟩ ⟨rfl, rfl, rfl⟩
    (by decide) (by decide)
  have h2 := Name_parses_to_ID { zeroUser with ID := -9223372036854775808 }
    { zeroUser with ID := 42 } ⟨rfl, rfl, rfl⟩ ⟨rfl, rfl, rfl⟩ (by decide) (by decide)
  exact ⟨h.1, h2.1, h.2 (by decide)⟩

/-! ## The text of `String()` against `Name()` -/

theorem String_data (u : User) :
    u.String.data
      = (if u.Title = "" then [] else '[' :: (u.Title.data ++ [']'])) ++ u.Name.data := by
  unfold User.String
  by_cases h : u.Title = ""
  · simp [h]
  · simp [h, String.data_append]

/-- C14: `String()` equals `Name()` iff the title is empty; `String()` always
ends with `Name()`, and its length is that of `Name()` plus, for a non-empty
title, the length of the title plus 2 (in characters and in bytes alike). -/
theorem String_extends_Name (u : User) :
    (u.String = u.Name ↔ u.Title = "") ∧
    u.Name.data <:+ u.String.data ∧
    u.String.length = u.Name.length + (if u.Title = "" then 0 else u.Title.length + 2) ∧
    u.String.utf8ByteSize
      = u.Name.utf8ByteSize + (if u.Title = "" then 0 else u.Title.utf8ByteSize + 2) := by
  have hd := String_data u
  have hlen : u.String.length
      = u.Name.length + (if u.Title = "" then 0 else u.Title.length + 2) := by
    have e1 : u.String.length = u.String.data.length := rfl
    have e2 : u.Name.length = u.Name.data.length := rfl
    have e3 : u.Title.length = u.Title.data.length := rfl
    rw [e1, e2, hd]
    by_cases h : u.Title = ""
    · rw [if_pos h, if_pos h]
      simp only [List.nil_append, Nat.add_zero]
    · rw [if_neg h, if_neg h, e3]
      simp only [List.cons_append, List.append_assoc, List.length_cons, List.length_append,
        List.length_nil]
      omega
  refine ⟨?_, ?_, hlen, ?_⟩
  · constructor
    · intro heq
      by_contra h
      rw [heq, if_neg h] at hlen
      omega
    · intro h
      simp [User.String, h]
  · rw [hd]
    exact List.suffix_append _ _
  · show String.utf8Len u.String.data = String.utf8Len u.Name.data + _
    rw [hd]
    by_cases h : u.Title = ""
    · simp [h]
    · have hb : String.utf8Len u.Title.data = u.Title.utf8ByteSize := rfl
      have h1 : ('[' : Char).utf8Size = 1 := rfl
      have h2 : (']' : Char).utf8Size = 1 := rfl
      simp only [h, if_false, String.utf8Len_append, String.utf8Len_cons, String.utf8Len_nil,
        hb, h1, h2]
      omega

/-- C14 at a user with the title "VIP" and the card "C", and at the same user
without the title. -/
theorem String_extends_Name_witness :
    ({ zeroUser with Title := "VIP", Card := "C" } : User).String
      ≠ ({ zeroUser with Title := "VIP", Card := "C" } : User).Name ∧
    ({ zeroUser with Title := "VIP", Card := "C" } : User).String.length = 1 + (3 + 2) ∧
    ({ zeroUser with Card := "C" } : User).String
      = ({ zeroUser with Card := "C" } : User).Name := by
  refine ⟨?_, ?_, ?_⟩
  · intro h
    exact absurd ((String_extends_Name { zeroUser with Title := "VIP", Card := "C" }).1.mp h)
      (by decide)
  · exact (String_extends_Name { zeroUser with Title := "VIP", Card := "C" }).2.2.1
  · exact (String_extends_Name { zeroUser with Card := "C" }).1.mpr rfl

/-- C15: `String()` is not injective in the title: the user with title "VIP"
and card "C" and the user with no title and card "[VIP]C" have the same text
(and likewise with the bracketed prefix typed into the nickname). -/
theorem String_not_injective_in_title :
    (({ zeroUser with Title := "VIP", Card := "C" } : User).Title ≠ "" ∧
      ({ zeroUser with Card := "[VIP]C" } : User).Title = "" ∧
      ({ zeroUser with Title := "VIP", Card := "C" } : User).String = "[VIP]C" ∧
      ({ zeroUser with Card := "[VIP]C" } : User).String = "[VIP]C" ∧
      ({ zeroUser with NickName := "[VIP]C" } : User).String = "[VIP]C") ∧
    ¬ (∀ u v : User, u.String = v.String → u.Title = v.Title) ∧
    ∃ u v : User, u.Title ≠ "" ∧ v.Title = "" ∧ u.String = v.String := by
  refine ⟨by decide, ?_, ?_⟩
  · intro h
    exact absurd (h { zeroUser with Title := "VIP", Card := "C" }
      { zeroUser with Card := "[VIP]C" } (by decide)) (by decide)
  · exact ⟨{ zeroUser with Title := "VIP", Card := "C" }, { zeroUser with Card := "[VIP]C" },
      by decide, by decide, by decide⟩

/-! ## The update normalizer -/

/-- C11: for an update with `PostType` "message" the normalizer sets `Message`
to a message whose chat has `MessageType` as type and the matching id, whose
sender is `Sender` (or the minimal user of `UserID`), and whose text, also put
into `Text`, is the flattened raw message; the chat is a group iff
`MessageType` is "group". -/
theorem normalize_message {Content : Type} (fmt : Formatter Content) (u : Update Content)
    (h : u.PostType = "message") :
    ∃ (m : Message Content) (c : Chat) (f : User),
      (normalize fmt u).Message = some m ∧ m.Chat = some c ∧ m.From = some f ∧
      c.Type_ = u.MessageType ∧
      (u.MessageType = "group" → c.ID = u.GroupID) ∧
      (u.MessageType = "discuss" → c.ID = u.DiscussID) ∧
      (u.MessageType = "private" → c.ID = u.UserID) ∧
      (c.IsGroup = true ↔ u.MessageType = "group") ∧
      (∀ s : User, u.Sender = some s → f = s) ∧
      (u.Sender = none → f = { zeroUser with ID := u.UserID }) ∧
      m.Text = flattenRaw fmt u.RawMessage ∧
      (normalize fmt u).Text = m.Text ∧
      (∀ (s : String) (x : Content), u.RawMessage = .string s → fmt.parseString s = some x →
        m.Text = fmt.flatten x) := by
  refine ⟨_, _, _, by rw [normalize, if_pos h], rfl, rfl, rfl, ?_, ?_, ?_, ?_, ?_, ?_, rfl, ?_, ?_⟩
  · intro hg; simp [chatID, hg]
  · intro hd; simp [chatID, hd]
  · intro hp; simp [chatID, hp]
  · simp [Chat.IsGroup]
  · intro s hs; simp [senderOf, hs]
  · intro hs; simp [senderOf, hs]
  · rw [normalize, if_pos h]
  · intro s x hs hx
    simp [flattenRaw, parseRawMessage, hs, hx]

/-- The example of C11: a group message from Bob with the raw message "hello",
read by the plain-text formatter. -/
theorem normalize_message_witness :
    ∃ (m : Message String) (c : Chat) (f : User),
      (normalize plainFormatter
        { zeroUpdate String with PostType := "message", MessageType := "group",
                                 GroupID := 1001, RawMessage := .string "hello",
                                 Sender := some { zeroUser with ID := 7, NickName := "Bob" }
        }).Message = some m ∧
      m.Chat = some c ∧ m.From = some f ∧ c.ID = 1001 ∧ c.Type_ = "group" ∧
      c.IsGroup = true ∧ f.Name = "Bob" ∧ m.Text = "hello" := by
  obtain ⟨m, c, f, hm, hc, hf, hty, hgid, _, _, hgrp, hs, _, _, _, htxt⟩ :=
    normalize_message plainFormatter
      { zeroUpdate String with PostType := "message", MessageType := "group",
                               GroupID := 1001, RawMessage := .string "hello",
                               Sender := some { zeroUser with ID := 7, NickName := "Bob" } }
      rfl
  refine ⟨m, c, f, hm, hc, hf, hgid rfl, hty, hgrp.mpr rfl, ?_, htxt "hello" "hello" rfl rfl⟩
  rw [hs { zeroUser with ID := 7, NickName := "Bob" } rfl]
  decide

/-- C12: for an update whose `PostType` is not "message" the normalizer leaves
`Message` as it was (unset for a decoded update) and changes no wire field:
apart from `Text` the update is the same, and so is its encoding. -/
theorem normalize_other {Content : Type} (fmt : Formatter Content) (u : Update Content)
    (h : u.PostType ≠ "message") :
    (normalize fmt u).Message = u.Message ∧
    (u.Message = none → (normalize fmt u).Message = none) ∧
    { normalize fmt u with Text := u.Text, Message := u.Message } = u ∧
    (∀ (messageEncode : Option (Message Content) → JSON)
      (messageStore :
        (String → String) → JSON → Option (Message Content) → Option (Message Content) × Bool),
      encodeUpdate messageEncode messageStore (normalize fmt u)
        = encodeUpdate messageEncode messageStore u) := by
  have hn : normalize fmt u = { u with Text := flattenRaw fmt u.RawMessage } := by
    rw [normalize, if_neg h]
  rw [hn]
  exact ⟨rfl, fun h0 => h0, rfl, fun _ _ => rfl⟩

/-- The example of C12: a notice of type "group_increase". -/
theorem normalize_other_witness :
    (normalize plainFormatter
      { zeroUpdate String with PostType := "notice", NoticeType := "group_increase" }).Message
      = none ∧
    { normalize plainFormatter
        { zeroUpdate String with PostType := "notice", NoticeType := "group_increase" } with
      Text := "", Message := none }
      = { zeroUpdate String with PostType := "notice", NoticeType := "group_increase" } := by
  have h := normalize_other plainFormatter
    { zeroUpdate String with PostType := "notice", NoticeType := "group_increase" }
    (by decide)
  exact ⟨h.2.1 rfl, h.2.2.1⟩

end QQBotAPI
